import Mathlib

/-!
Verification of the position-context resolution engine of the RWX
language server (rwx-cloud/language-server).

The repository ships only its test suite and CI workflow files; the
implementation proper (the scanners, classifiers, extractors, the
speculative-repair transform and the response assemblers) is not in the
source tree.  Every definition below is therefore modelled from the
specification (spec.md), faithful to its words, and checked against the
behaviour pinned down by the test files.

A document is a list of lines; a line is a list of characters (UTF-16
code-unit level details do not matter for the ASCII-only constructs the
spec describes).  A cursor position is a zero-based (line, character)
pair.
-/

namespace RwxLs

/-- A line of text. -/
abbrev Line := List Char

/-- A document: an ordered sequence of text lines. -/
abbrev Doc := List Line

/-- Characters of identifiers: `[a-zA-Z0-9_-]` (spec section 3, Task Key). -/
def isIdentChar (c : Char) : Bool :=
  c.isAlphanum || c = '_' || c = '-'

/-- Quote characters recognized around task keys and list items. -/
def isQuoteChar (c : Char) : Bool :=
  c = '"' || c = '\''

/-- Split a list at its leading run of spaces: count of spaces and rest. -/
def spanSpaces : List Char → Nat × List Char
  | [] => (0, [])
  | c :: r =>
    if c = ' ' then ((spanSpaces r).1 + 1, (spanSpaces r).2)
    else (0, c :: r)

/-- Split a list at its leading run of identifier characters. -/
def spanIdent : List Char → List Char × List Char
  | [] => ([], [])
  | c :: r =>
    if isIdentChar c then (c :: (spanIdent r).1, (spanIdent r).2)
    else ([], c :: r)

/-- Match a literal at the front of a list, returning the rest on success. -/
def dropLit : List Char → List Char → Option (List Char)
  | [], l => some l
  | _ :: _, [] => none
  | c :: p, d :: l => if c = d then dropLit p l else none

/-- Modelled from the spec: skip the optional list dash of a task line
(`- key: ...`); returns the number of characters consumed and the rest. -/
def skipDash : List Char → Nat × List Char
  | [] => (0, [])
  | c :: r =>
    if c = '-' then (1 + (spanSpaces r).1, (spanSpaces r).2)
    else (0, c :: r)

/-- Modelled from the spec (section 4.1, key-value scanner, whose
implementation is absent from the source tree): a line matching "optional
list-dash, keyword, optional spaces, optional quotes, identifier, optional
quotes, end of line".  Returns the column of the identifier and the
identifier. -/
def kvIdentOfLine (kw : List Char) (line : Line) : Option (Nat × List Char) :=
  let s1 := spanSpaces line
  let s2 := skipDash s1.2
  match dropLit kw s2.2 with
  | none => none
  | some r3 =>
    let s3 := spanSpaces r3
    let col := s1.1 + s2.1 + kw.length + s3.1
    match s3.2 with
    | [] => none
    | q :: r5 =>
      if isQuoteChar q then
        let name := (spanIdent r5).1
        if name = [] then none
        else if (spanIdent r5).2 = [q] then some (col + 1, name) else none
      else
        let name := (spanIdent (q :: r5)).1
        if name = [] then none
        else if (spanIdent (q :: r5)).2 = [] then some (col, name) else none

/-- Modelled from the spec (section 4.1, task-key-definition scanner): a
line matching "optional list-dash, `key:`, optional quotes, identifier,
optional quotes, end of line". -/
def taskKeyDefOfLine (line : Line) : Option (Nat × List Char) :=
  kvIdentOfLine "key:".data line

/-- Modelled from the spec (section 4.3, task-usage lookup, simple form): a
`use: <name>` line ending with the referenced identifier. -/
def simpleUseOfLine (line : Line) : Option (Nat × List Char) :=
  kvIdentOfLine "use:".data line

/-- Modelled from the spec: the sentinel/placeholder task-key value that the
task-key enumeration excludes (spec section 4.3; its concrete spelling is
not fixed by the spec, only that keys equal to it are dropped). -/
def sentinelTaskKey : List Char := "__rwx_placeholder__".data

/-- Modelled from the spec (section 4.3, task-key enumeration; the external
structural parser is out of scope and is modelled as the line-level
task-key-definition scan): every declared task key, in declaration order,
excluding empty keys and the sentinel key. -/
def extractTaskKeys (doc : Doc) : List (List Char) :=
  (doc.filterMap (fun l => (taskKeyDefOfLine l).map (·.2))).filter
    (fun k => !k.isEmpty && k ≠ sentinelTaskKey)

/-- Does the line begin a new list item (a dash after indentation)? -/
def lineBeginsItem (l : Line) : Bool :=
  match (spanSpaces l).2 with
  | '-' :: _ => true
  | _ => false

/-- Modelled from the completion snapshots of the test suite (the task
whose dependency list is being completed never offers its own key): the
key of the task enclosing the cursor, read from the nearest line at or
above the cursor that begins a list item; `none` when that item has no
key line there. -/
def enclosingTaskKey (doc : Doc) (li : Nat) : Option (List Char) :=
  go ((doc.take (li + 1)).reverse)
where
  go : List Line → Option (List Char)
    | [] => none
    | l :: rest =>
      if lineBeginsItem l then (taskKeyDefOfLine l).map (·.2)
      else go rest

/-! ### Context classifiers (spec section 4.2) -/

/-- The line at index `i` of a document (empty when out of range). -/
def lineAt (doc : Doc) (i : Nat) : Line := doc.getD i []

/-- Number of opening square brackets in a line fragment. -/
def countOpenBr (l : List Char) : Nat := l.countP (fun c => c = '[')

/-- Number of closing square brackets in a line fragment. -/
def countCloseBr (l : List Char) : Nat := l.countP (fun c => c = ']')

/-- Does the line start (after indentation and an optional list dash) with
the given literal? -/
def lineStartsWithKw (kw : List Char) (l : List Char) : Bool :=
  (dropLit kw (skipDash (spanSpaces l).2).2).isSome

/-- Does the line start with the `use:` keyword? -/
def lineStartsWithUse (l : List Char) : Bool :=
  lineStartsWithKw "use:".data l

/-- Modelled from the spec (section 4.2): the recognized task-level keywords
(`key|call|use|run|with`) that bound a dependency list's scope. -/
def lineStartsWithTaskKeyword (l : List Char) : Bool :=
  lineStartsWithKw "key:".data l || lineStartsWithKw "call:".data l ||
    lineStartsWithKw "use:".data l || lineStartsWithKw "run:".data l ||
    lineStartsWithKw "with:".data l

/-- Modelled from the spec (section 4.2, dependency-list context, simple
form): the cursor follows a `use:` keyword not yet followed by `[`;
`bef` is the portion of the cursor line left of the cursor. -/
def simpleUseCtx (bef : List Char) : Bool :=
  match dropLit "use:".data (skipDash (spanSpaces bef).2).2 with
  | none => false
  | some rest => !rest.contains '['

/-- Modelled from the spec (section 4.2, open-bracket detection): walk
backward over the lines before the cursor line (nearest first), adding each
line's full bracket counts to the accumulated `[`/`]` counts; a `use: [`
line is the list's start once the accumulated depth is positive there; a
line beginning a new list item with another recognized keyword bounds the
scope and stops the walk. -/
def useArrayWalk : List Line → Nat → Nat → Bool
  | [], _, _ => false
  | l :: rest, o, c =>
    let o' := o + countOpenBr l
    let c' := c + countCloseBr l
    if lineStartsWithUse l && l.contains '[' && decide (c' < o') then true
    else if lineStartsWithTaskKeyword l then false
    else useArrayWalk rest o' c'

/-- Modelled from the spec (section 4.2, dependency-list context, bracketed
form): the cursor lies inside an open bracketed list introduced by
`use: [` on the current or an earlier line.  The depth counter is seeded
from the portion of the cursor line left of the cursor. -/
def useArrayCtx (doc : Doc) (li col : Nat) : Bool :=
  let bef := (lineAt doc li).take col
  let o := countOpenBr bef
  let c := countCloseBr bef
  if lineStartsWithUse bef && decide (c < o) then true
  else useArrayWalk ((doc.take li).reverse) o c

/-- Modelled from the spec (section 4.2): dependency-list context holds at a
cursor position when either the simple or the bracketed form applies. -/
def useContextAt (doc : Doc) (li col : Nat) : Bool :=
  simpleUseCtx ((lineAt doc li).take col) || useArrayCtx doc li col

/-- Modelled from the spec (section 4.2, embedded-file-path context): the
text before the cursor matches `call:` followed by the run-directory
placeholder, optionally followed by `/` and a partial relative path; the
captured partial path is returned. -/
def embeddedPathOfBefore (bef : List Char) : Option (List Char) :=
  match dropLit "call:".data (skipDash (spanSpaces bef).2).2 with
  | none => none
  | some r3 =>
    match dropLit "$\x7b\x7b".data (spanSpaces r3).2 with
    | none => none
    | some r5 =>
      match dropLit "run.mint-dir".data (spanSpaces r5).2 with
      | none => none
      | some r7 =>
        match dropLit "\x7d\x7d".data (spanSpaces r7).2 with
        | none => none
        | some r9 =>
          match r9 with
          | [] => some []
          | '/' :: p => if p.all (fun c => c != ' ') then some p else none
          | _ => none

/-- Does `pat` occur as a contiguous sublist of `l`? -/
def containsSub (pat : List Char) : List Char → Bool
  | [] => pat.isEmpty
  | c :: r => pat.isPrefixOf (c :: r) || containsSub pat r

/-- Modelled from the spec (section 4.2, package-call context): the text
before the cursor matches `call:` followed by optional whitespace and no
placeholder expression. -/
def packageCallCtx (bef : List Char) : Bool :=
  match dropLit "call:".data (skipDash (spanSpaces bef).2).2 with
  | none => false
  | some r3 => !containsSub "$\x7b\x7b".data r3

/-- Indentation (leading-space count) of a line. -/
def indentOf (l : Line) : Nat := (spanSpaces l).1

/-- Is the line a bare `with:` declaration (after indentation and an
optional list dash)? -/
def lineIsWith (l : Line) : Bool :=
  (skipDash (spanSpaces l).2).2 == "with:".data

/-- Modelled from the spec (section 4.2, parameter-block context): walk
backward until a line of lesser indentation than the cursor line is found;
context holds exactly when that line is a `with:` declaration. -/
def paramWalk (n : Nat) : List Line → Bool
  | [] => false
  | l :: rest =>
    if indentOf l < n then lineIsWith l
    else paramWalk n rest

/-- Modelled from the spec (section 4.2, parameter-block context): the
current line is an empty `with:` declaration, or the cursor's line is
indented under a `with:` line. -/
def paramBlockCtxAt (doc : Doc) (li : Nat) : Bool :=
  let cur := lineAt doc li
  if lineIsWith cur then true
  else paramWalk (indentOf cur) ((doc.take li).reverse)

/-- The context classification of a cursor position (spec section 3). -/
inductive Ctx where
  | none
  | taskDepList
  | embeddedFilePath
  | packageCall
  | parameterBlock
deriving DecidableEq, Repr

/-- Modelled from the spec (sections 3 and 4.2): the classifiers evaluated
top-to-bottom with early return, in the fixed priority order
dependency-list, embedded-file-path, package-call, parameter-block. -/
def classifyContext (doc : Doc) (li col : Nat) : Ctx :=
  let bef := (lineAt doc li).take col
  if useContextAt doc li col then .taskDepList
  else if (embeddedPathOfBefore bef).isSome then .embeddedFilePath
  else if packageCallCtx bef then .packageCall
  else if paramBlockCtxAt doc li then .parameterBlock
  else .none

/-! ### Speculative repair (spec section 4.4) -/

/-- Modelled from the spec (section 4.4, same backward accounting as the
dependency-list classifier): the indentation of the `use: [` line that
opened the currently-open list, when one exists among the earlier lines. -/
def useArrayOpenerIndent : List Line → Nat → Nat → Option Nat
  | [], _, _ => none
  | l :: rest, o, c =>
    let o' := o + countOpenBr l
    let c' := c + countCloseBr l
    if lineStartsWithUse l && l.contains '[' && decide (c' < o') then some (indentOf l)
    else if lineStartsWithTaskKeyword l then none
    else useArrayOpenerIndent rest o' c'

/-- Modelled from the spec (section 4.4): does a closing bracket already
appear in the list's scope, scanning forward to the next line starting a
new task-level keyword? -/
def closedLater : List Line → Bool
  | [] => false
  | l :: rest =>
    if lineStartsWithTaskKeyword l then false
    else if l.contains ']' then true
    else closedLater rest

/-- Modelled from the spec (section 4.4, Speculative Repair; the transform's
implementation is absent from the source tree): if the cursor's line ends
with an unterminated `use: [` opener, append a closing bracket on that
line; otherwise, if backward bracket accounting shows a list opened on an
earlier line and no closing bracket appears later in its scope, insert a
new line after the cursor line holding a closing bracket indented to the
opening line's indentation; otherwise leave the document unchanged. -/
def speculativeRepair (doc : Doc) (li col : Nat) : Doc :=
  let cur := lineAt doc li
  if lineStartsWithUse cur && decide (countCloseBr cur < countOpenBr cur) then
    doc.set li (cur ++ [']'])
  else
    let bef := cur.take col
    match useArrayOpenerIndent ((doc.take li).reverse) (countOpenBr bef) (countCloseBr bef) with
    | some ind =>
      if closedLater (doc.drop (li + 1)) then doc
      else doc.take (li + 1) ++ [List.replicate ind ' ' ++ [']']] ++ doc.drop (li + 1)
    | none => doc

/-! ### Response assembly: completion (spec section 4.5) -/

/-- A completion entry of the protocol (label, insert text, detail, item
kind, resolution data). -/
structure CompletionItem where
  label : List Char
  insertText : List Char
  detail : List Char
  kind : Nat
  data : List Char
deriving DecidableEq, Repr

/-- Decimal digits of a number, for the `data` payload counters. -/
def natToChars (n : Nat) : List Char := Nat.toDigits 10 n

/-- A task-dependency completion item (kind 18, as pinned by the tests). -/
def mkTaskItem (i : Nat) (k : List Char) : CompletionItem :=
  { label := k, insertText := k, detail := "Task dependency".data, kind := 18,
    data := "task-".data ++ natToChars i }

/-- Task-name completion items, in declaration order. -/
def taskCompletionItems (keys : List (List Char)) : List CompletionItem :=
  keys.enum.map (fun p => mkTaskItem p.1 p.2)

/-- A directory entry of the external directory-listing interface. -/
structure FsEntry where
  name : List Char
  isDir : Bool
deriving DecidableEq, Repr

/-- Does the name carry a YAML extension (`.yml` or `.yaml`)? -/
def isYamlName (n : List Char) : Bool :=
  ".yml".data.isSuffixOf n || ".yaml".data.isSuffixOf n

/-- Is the entry hidden (name starting with a dot)? -/
def isHiddenName (n : List Char) : Bool :=
  match n with
  | '.' :: _ => true
  | _ => false

/-- A folder completion item (kind 19, as pinned by the tests). -/
def mkDirItem (n : List Char) : CompletionItem :=
  { label := n, insertText := n ++ ['/'], detail := "Directory".data, kind := 19,
    data := "dir-".data ++ n }

/-- A file completion item (kind 17, as pinned by the tests). -/
def mkFileItem (n : List Char) : CompletionItem :=
  { label := n, insertText := n, detail := "RWX run definition file".data, kind := 17,
    data := "file-".data ++ n }

/-- Modelled from the spec (sections 4.5 and 8.6): the directory entries
that survive the exclusions: hidden entries, the currently-open file and
non-YAML files are dropped. -/
def keptEntries (entries : List FsEntry) (currentFile : List Char) : List FsEntry :=
  entries.filter (fun e =>
    !isHiddenName e.name && !(e.name == currentFile) && (e.isDir || isYamlName e.name))

/-- The surviving directory names in ascending lexicographic order. -/
def sortedDirNames (entries : List FsEntry) (currentFile : List Char) : List (List Char) :=
  List.insertionSort (· ≤ ·)
    (((keptEntries entries currentFile).filter (fun e => e.isDir)).map (·.name))

/-- The surviving file names in ascending lexicographic order. -/
def sortedFileNames (entries : List FsEntry) (currentFile : List Char) : List (List Char) :=
  List.insertionSort (· ≤ ·)
    (((keptEntries entries currentFile).filter (fun e => !e.isDir)).map (·.name))

/-- Modelled from the spec (sections 4.5 and 8.6): embedded-file-path
completion over a directory listing: directories come before files, each
group in ascending lexicographic name order. -/
def fileCompletions (entries : List FsEntry) (currentFile : List Char) : List CompletionItem :=
  (sortedDirNames entries currentFile).map mkDirItem ++
    (sortedFileNames entries currentFile).map mkFileItem

/-- A catalog package entry (name, latest version, description). -/
structure PkgInfo where
  name : List Char
  version : List Char
  description : List Char
deriving DecidableEq, Repr

/-- A package-call completion item (kind 9, as pinned by the tests). -/
def mkPackageItem (i : Nat) (p : PkgInfo) : CompletionItem :=
  { label := p.name, insertText := p.name ++ [' '] ++ p.version,
    detail := ['v'] ++ p.version, kind := 9, data := "package-".data ++ natToChars i }

/-- A parameter of a catalog package. -/
structure PkgParam where
  name : List Char
  required : Bool
  descr : List Char
deriving DecidableEq, Repr

/-- Details of a catalog package (spec section 6). -/
structure PkgDetails where
  params : List PkgParam
  readme : List Char
  description : List Char
  sourceCodeUrl : List Char
  issueTrackerUrl : List Char
deriving DecidableEq, Repr

/-- The catalog details endpoint, consumed as a read operation keyed by
name and version; `none` models a failed fetch or an unknown package. -/
abbrev Catalog := List Char → List Char → Option PkgDetails

/-- A parameter completion item (kind 10, as pinned by the tests). -/
def mkParamItem (i : Nat) (p : PkgParam) : CompletionItem :=
  { label := p.name, insertText := p.name ++ ": ".data,
    detail := (if p.required then "required" else "optional").data, kind := 10,
    data := "param-".data ++ natToChars i }

/-- Split a list at its leading run of non-space characters. -/
def spanNonSpace : List Char → List Char × List Char
  | [] => ([], [])
  | c :: r =>
    if c = ' ' then ([], c :: r)
    else (c :: (spanNonSpace r).1, (spanNonSpace r).2)

/-- Modelled from the spec (section 4.3, package-call extraction): from a
line, extract the whitespace-delimited (name, version) tokens after
`call:`, rejecting any line containing a placeholder expression. -/
def packageCallOfLine (line : Line) : Option (List Char × List Char) :=
  if containsSub "$\x7b\x7b".data line then none
  else
    match dropLit "call:".data (skipDash (spanSpaces line).2).2 with
    | none => none
    | some r3 =>
      let p5 := spanNonSpace (spanSpaces r3).2
      let p7 := spanNonSpace (spanSpaces p5.2).2
      if p5.1.isEmpty || p7.1.isEmpty then none
      else if (spanSpaces p7.2).2.isEmpty then some (p5.1, p7.1) else none

/-- Modelled from the spec (section 4.3, fact extraction for a parameter
block): the enclosing package call of a cursor line, found by scanning
upward for the nearest package-call line. -/
def firstCallAbove (doc : Doc) (li : Nat) : Option (List Char × List Char) :=
  go ((doc.take (li + 1)).reverse)
where
  go : List Line → Option (List Char × List Char)
    | [] => none
    | l :: rest =>
      match packageCallOfLine l with
      | some r => some r
      | none => go rest

/-- Modelled from the spec (section 4.3) and the completion snapshots of
the test suite: the keys offered in a dependency list are the declared
task keys of the repaired document, without the key of the task enclosing
the cursor (a task never depends on itself). -/
def dependencyCompletionKeys (doc : Doc) (li col : Nat) : List (List Char) :=
  (extractTaskKeys (speculativeRepair doc li col)).filter
    (fun k => !(some k == enclosingTaskKey doc li))

/-- Modelled from the spec (sections 4.5, 6 and 7): the completion request.
The context classification selects the branch; the external directory
listing, the catalog package list and the catalog details endpoint enter
as inputs. An unrecognized context yields the empty list. -/
def completionAt (doc : Doc) (li col : Nat) (entries : List FsEntry)
    (currentFile : List Char) (packages : List PkgInfo) (details : Catalog) :
    List CompletionItem :=
  match classifyContext doc li col with
  | .taskDepList => taskCompletionItems (dependencyCompletionKeys doc li col)
  | .embeddedFilePath => fileCompletions entries currentFile
  | .packageCall => packages.enum.map (fun p => mkPackageItem p.1 p.2)
  | .parameterBlock =>
    match firstCallAbove doc li with
    | none => []
    | some (n, v) =>
      match details n v with
      | none => []
      | some d => d.params.enum.map (fun p => mkParamItem p.1 p.2)
  | .none => []

/-! ### References and navigation (spec sections 4.1, 4.3, 6) -/

/-- A span of text inside the document: zero-based line, start column and
end column. -/
structure Loc where
  line : Nat
  startCol : Nat
  endCol : Nat
deriving DecidableEq, Repr

/-- Modelled from the spec (section 4.1, anchor/alias scanners): every
occurrence in a line of the mark character followed by a nonempty
identifier run; the maximal run gives the word boundary.  Returns the
column of the mark and the name. -/
def scanMarks (mark : Char) : List Char → Nat → List (Nat × List Char)
  | [], _ => []
  | c :: r, i =>
    if c = mark then
      if (spanIdent r).1.isEmpty then scanMarks mark r (i + 1)
      else (i, (spanIdent r).1) :: scanMarks mark r (i + 1)
    else scanMarks mark r (i + 1)

/-- All `&name` anchor occurrences of a given name, one location per
occurrence; the span includes the `&`. -/
def anchorOccs (doc : Doc) (name : List Char) : List Loc :=
  (doc.enum.map (fun p =>
    ((scanMarks '&' p.2 0).filter (fun q => q.2 == name)).map
      (fun q => Loc.mk p.1 q.1 (q.1 + 1 + name.length)))).flatten

/-- All `*name` alias occurrences of a given name; the span includes the
`*`. -/
def aliasOccs (doc : Doc) (name : List Char) : List Loc :=
  (doc.enum.map (fun p =>
    ((scanMarks '*' p.2 0).filter (fun q => q.2 == name)).map
      (fun q => Loc.mk p.1 q.1 (q.1 + 1 + name.length)))).flatten

/-- Modelled from the spec (section 3): the anchor is the sole declaration;
its site is the first `&name` occurrence in the document. -/
def anchorDefLoc (doc : Doc) (name : List Char) : Option Loc :=
  (anchorOccs doc name).head?

/-- Modelled from the spec (sections 4.3 and 6): the reference locations
for a YAML anchor name: the declaration (when included) followed by every
alias occurrence. -/
def anchorReferences (doc : Doc) (name : List Char) (incl : Bool) : List Loc :=
  (match anchorDefLoc doc name with
    | some d => if incl then [d] else []
    | none => []) ++ aliasOccs doc name

/-- Every task-key definition site of a given name, one per matching
line. -/
def taskDefLocs (doc : Doc) (name : List Char) : List Loc :=
  doc.enum.filterMap (fun p =>
    match taskKeyDefOfLine p.2 with
    | some (c, k) => if k == name then some (Loc.mk p.1 c (c + k.length)) else none
    | none => none)

/-- Split the interior of a bracketed list on commas, tracking the start
column of each raw item; a closing bracket or the end of the line ends the
last item. -/
def splitItems : List Char → Nat → Nat → List Char → List (Nat × List Char)
  | [], _, start, acc => [(start, acc.reverse)]
  | c :: r, i, start, acc =>
    if c = ']' then [(start, acc.reverse)]
    else if c = ',' then (start, acc.reverse) :: splitItems r (i + 1) (i + 1) []
    else splitItems r (i + 1) start (c :: acc)

/-- Drop trailing spaces, then one trailing quote character if present. -/
def trimTail (l : List Char) : List Char :=
  let t1 := (spanSpaces l.reverse).2
  let t2 := match t1 with
    | q :: rest => if isQuoteChar q then rest else t1
    | [] => []
  t2.reverse

/-- Modelled from the spec (section 4.3): trim whitespace and surrounding
quote characters from a list item, adjusting its start column. -/
def trimItem (p : Nat × List Char) : Nat × List Char :=
  let s1 := spanSpaces p.2
  let s2 : Nat × List Char := match s1.2 with
    | q :: rest => if isQuoteChar q then (1, rest) else (0, q :: rest)
    | [] => (0, ([] : List Char))
  (p.1 + s1.1 + s2.1, trimTail s2.2)

/-- Modelled from the spec (section 4.3, task-usage lookup, bracketed
form): the trimmed items of a single-line `use: [...]` list, each with its
column in the original, unmodified text. -/
def arrayUseItemsOfLine (line : Line) : List (Nat × List Char) :=
  let s1 := spanSpaces line
  let s2 := skipDash s1.2
  match dropLit "use:".data s2.2 with
  | none => []
  | some r3 =>
    let s3 := spanSpaces r3
    let col := s1.1 + s2.1 + 4 + s3.1 + 1
    match s3.2 with
    | '[' :: r5 =>
      ((splitItems r5 col col []).map trimItem).filter (fun p => !p.2.isEmpty)
    | _ => []

/-- Modelled from the spec (section 4.3, task-usage lookup): one location
per simple `use: <name>` occurrence and per matching bracketed-list item,
with columns computed from the original text. -/
def taskUseLocs (doc : Doc) (name : List Char) : List Loc :=
  (doc.enum.map (fun p =>
    (match simpleUseOfLine p.2 with
      | some (c, k) => if k == name then [Loc.mk p.1 c (c + k.length)] else []
      | none => []) ++
    (arrayUseItemsOfLine p.2).filterMap (fun q =>
      if q.2 == name then some (Loc.mk p.1 q.1 (q.1 + q.2.length)) else none))).flatten

/-- Modelled from the spec (section 6): the reference locations for a task
key: the definition sites (when included) followed by every usage site. -/
def taskReferences (doc : Doc) (name : List Char) (incl : Bool) : List Loc :=
  (if incl then taskDefLocs doc name else []) ++ taskUseLocs doc name

/-- A navigable token at the cursor: a task identifier, an anchor or an
alias. -/
inductive RefToken where
  | task (name : List Char)
  | anchor (name : List Char)
  | aliasRef (name : List Char)
deriving DecidableEq, Repr

/-- Is the cursor column within the inclusive span `[s, e]`? -/
def withinSpan (col s e : Nat) : Bool :=
  decide (s ≤ col) && decide (col ≤ e)

/-- The navigable tokens of a line, each with its span. -/
def refCandidatesOfLine (l : Line) : List (Nat × Nat × RefToken) :=
  (match taskKeyDefOfLine l with
    | some (c, k) => [(c, c + k.length, RefToken.task k)]
    | none => []) ++
  (match simpleUseOfLine l with
    | some (c, k) => [(c, c + k.length, RefToken.task k)]
    | none => []) ++
  (arrayUseItemsOfLine l).map (fun p => (p.1, p.1 + p.2.length, RefToken.task p.2)) ++
  (scanMarks '&' l 0).map (fun p => (p.1, p.1 + 1 + p.2.length, RefToken.anchor p.2)) ++
  (scanMarks '*' l 0).map (fun p => (p.1, p.1 + 1 + p.2.length, RefToken.aliasRef p.2))

/-- Modelled from the spec (section 4.1): the recognized navigable token
whose span contains the cursor, when one exists. -/
def resolveRefTokenAt (doc : Doc) (li col : Nat) : Option RefToken :=
  ((refCandidatesOfLine (lineAt doc li)).find? (fun t => withinSpan col t.1 t.2.1)).map
    (fun t => t.2.2)

/-- Modelled from the spec (section 6, references request): resolve the
token at the cursor; task identifiers yield the task's reference set,
anchors and aliases both yield the anchor's reference set; a position with
no recognized token yields the empty list. -/
def referencesRequest (doc : Doc) (li col : Nat) (incl : Bool) : List Loc :=
  match resolveRefTokenAt doc li col with
  | some (.task n) => taskReferences doc n incl
  | some (.anchor n) => anchorReferences doc n incl
  | some (.aliasRef n) => anchorReferences doc n incl
  | none => []

/-- Modelled from the spec (section 6, definition request): a task usage
navigates to the task's first definition site; an alias navigates to its
anchor; `none` when nothing navigable resolves. -/
def definitionAt (doc : Doc) (li col : Nat) : Option (List Loc) :=
  match resolveRefTokenAt doc li col with
  | some (.task n) =>
    match (taskDefLocs doc n).head? with
    | some d => some [d]
    | none => none
  | some (.aliasRef n) =>
    match anchorDefLoc doc n with
    | some d => some [d]
    | none => none
  | _ => none

/-! ### Hover, diagnostics, code actions and the request gate
(spec sections 4.3, 4.5, 6, 7) -/

/-- Modelled from the spec (section 4.5): the markdown hover payload for a
package, assembled in the fixed section order. -/
def renderPkgHover (n v : List Char) (d : PkgDetails) : List Char :=
  "## ".data ++ n ++ " ".data ++ v ++ "\n\n".data ++ d.description ++ "\n\n".data ++
    d.sourceCodeUrl ++ "\n".data ++ d.issueTrackerUrl

/-- Modelled from the spec (sections 6 and 7, hover request): on a
package-call line, fetch the package details; a failed or unknown fetch
yields `none` rather than an error. -/
def hoverAt (doc : Doc) (li : Nat) (details : Catalog) : Option (List Char) :=
  match packageCallOfLine (lineAt doc li) with
  | none => none
  | some (n, v) =>
    match details n v with
    | none => none
    | some d => some (renderPkgHover n v d)

/-- A protocol diagnostic: severity, span, message. -/
structure Diagnostic where
  severity : Nat
  loc : Loc
  message : List Char
deriving DecidableEq, Repr

/-- The last index at which `pat` occurs as a contiguous sublist of `l`. -/
def lastIndexOfSub (pat l : List Char) : Option Nat :=
  ((List.range (l.length + 1)).filter (fun i => pat.isPrefixOf (l.drop i))).getLast?

/-- Modelled from the spec (section 4.3, call-line enumeration for version
checking): every package-call reference with its zero-based line and the
start of the version token's span, found via a last-index-of search for
the version substring on that line. -/
def packageCallSites (doc : Doc) : List (Nat × (List Char × List Char) × Nat) :=
  doc.enum.filterMap (fun p =>
    match packageCallOfLine p.2 with
    | some nv => (lastIndexOfSub nv.2 p.2).map (fun s => (p.1, nv, s))
    | none => none)

/-- The external catalog's latest-version lookup (none: package unknown or
list unavailable with an empty cache). -/
abbrev LatestLookup := List Char → Option (List Char)

/-- Modelled from the spec (section 6, diagnostics): one outdated-version
warning per package call whose version differs from the catalog's latest
version, spanning the version token. -/
def outdatedDiagnostics (doc : Doc) (latest : LatestLookup) : List Diagnostic :=
  (packageCallSites doc).filterMap (fun site =>
    match latest site.2.1.1 with
    | some lv =>
      if lv == site.2.1.2 then none
      else some
        { severity := 2,
          loc := Loc.mk site.1 site.2.2 (site.2.2 + site.2.1.2.length),
          message := "A newer version is available".data }
    | none => none)

/-- A single textual-replacement edit. -/
structure TextEdit where
  line : Nat
  startCol : Nat
  endCol : Nat
  newText : List Char
deriving DecidableEq, Repr

/-- A quick-fix code action carrying one edit. -/
structure CodeAction where
  title : List Char
  edit : TextEdit
deriving DecidableEq, Repr

/-- Apply a single-line textual-replacement edit to the line it targets. -/
def applyEditToLine (l : Line) (e : TextEdit) : Line :=
  l.take e.startCol ++ e.newText ++ l.drop e.endCol

/-- Modelled from the spec (section 6, code actions): one update action per
outdated package call, whose single edit replaces the version token's span
with the latest version. -/
def versionUpdateActions (doc : Doc) (latest : LatestLookup) : List CodeAction :=
  (packageCallSites doc).filterMap (fun site =>
    match latest site.2.1.1 with
    | some lv =>
      if lv == site.2.1.2 then none
      else some
        { title := "Update to latest version ".data ++ lv,
          edit := TextEdit.mk site.1 site.2.2 (site.2.2 + site.2.1.2.length) lv }
    | none => none)

/-- Split a filesystem path into segments at `/` and `\` separators
(tolerating mixed separators, spec section 6). -/
def splitSegs (path : List Char) : List (List Char) :=
  go path []
where
  go : List Char → List Char → List (List Char)
    | [], acc => [acc.reverse]
    | c :: r, acc =>
      if c == '/' || c == '\\' then acc.reverse :: go r []
      else go r (c :: acc)

/-- Modelled from the spec (section 6, document eligibility gate): only
documents whose filesystem path contains a segment exactly equal to
`.mint` or `.rwx` are processed. -/
def isRwxFilePath (path : List Char) : Bool :=
  (splitSegs path).any (fun s => s == ".mint".data || s == ".rwx".data)

/-- The request kinds of the produced protocol interface. -/
inductive RequestKind where
  | diagnostics
  | completion
  | definition
  | hover
  | references
  | codeActions
deriving DecidableEq, Repr

/-- A typed response, one variant per request kind. -/
inductive Response where
  | diagnostics (items : List Diagnostic)
  | completion (items : List CompletionItem)
  | definition (links : Option (List Loc))
  | hover (payload : Option (List Char))
  | references (locs : List Loc)
  | codeActions (acts : List CodeAction)
deriving DecidableEq, Repr

/-- The no-applicable-result response of each request kind: an empty list
or null (spec sections 6 and 7). -/
def noResultResponse : RequestKind → Response
  | .diagnostics => .diagnostics []
  | .completion => .completion []
  | .definition => .definition none
  | .hover => .hover none
  | .references => .references []
  | .codeActions => .codeActions []

/-- The external collaborators a request may consult: the structural
parser's positioned errors, the directory listing, the catalog list and
details endpoints, and the latest-version lookup. -/
structure Env where
  parserDiags : List Diagnostic
  entries : List FsEntry
  currentFile : List Char
  packages : List PkgInfo
  details : Catalog
  latest : LatestLookup

/-- Modelled from the spec (section 6): dispatch of a request over the
document-eligibility gate; an ineligible path yields the
no-applicable-result response for every request kind. -/
def handleRequest (path : List Char) (env : Env) (doc : Doc) (li col : Nat)
    (incl : Bool) (k : RequestKind) : Response :=
  if isRwxFilePath path then
    match k with
    | .diagnostics => .diagnostics (env.parserDiags ++ outdatedDiagnostics doc env.latest)
    | .completion =>
      .completion (completionAt doc li col env.entries env.currentFile env.packages env.details)
    | .definition => .definition (definitionAt doc li col)
    | .hover => .hover (hoverAt doc li env.details)
    | .references => .references (referencesRequest doc li col incl)
    | .codeActions => .codeActions (versionUpdateActions doc env.latest)
  else noResultResponse k

/-! ### Concrete fixtures used by the witnesses -/

/-- A document with one task defined once and referenced twice (simple and
bracketed form), mirroring the references test fixture. -/
def fixTasksDoc : Doc :=
  ["tasks:".data, "  - key: build".data, "    run: npm run build".data,
   "  - key: test".data, "    use: build".data, "    run: npm test".data,
   "  - key: deploy".data, "    use: [build, test]".data, "    run: npm run deploy".data]

/-- A document with one anchor and three aliases, mirroring the alias
references test fixture. -/
def fixAnchorDoc : Doc :=
  ["defaults: &common-config".data, "  environment:".data, "    CI: true".data,
   "".data, "tasks:".data, "  - key: build".data, "    <<: *common-config".data,
   "    run: npm run build".data, "  - key: test".data, "    <<: *common-config".data,
   "    run: npm test".data, "  - key: deploy".data, "    <<: *common-config".data,
   "    run: npm run deploy".data]

/-- A document with an outdated package call, mirroring the code-action
test fixture. -/
def fixCallDoc : Doc :=
  ["tasks:".data, "  - key: deploy".data, "    call: rwx/greeting 1.0.4".data,
   "    with:".data, "      name: x".data]

/-- A latest-version lookup knowing one package. -/
def fixLatest : LatestLookup :=
  fun n => if n == "rwx/greeting".data then some "1.0.5".data else none

/-- An environment with empty external collaborators. -/
def fixEnv : Env :=
  { parserDiags := [], entries := [], currentFile := [], packages := [],
    details := fun _ _ => none, latest := fun _ => none }

/-- A path outside every `.mint`/`.rwx` directory. -/
def fixBadPath : List Char := "/tmp/project/not-rwx.yml".data

/-- A path inside a `.mint` directory. -/
def fixGoodPath : List Char := "/tmp/project/.mint/tasks.yml".data

/-- A catalog whose details fetch always fails. -/
def fixNoCatalog : Catalog := fun _ _ => none

/-- A document whose cursor line matches the embedded-file pattern while an
open `use: [` list from the previous line still encloses the position. -/
def fixOverlapDoc : Doc :=
  ["  - key: a".data, "    run: x".data, "  - key: b".data, "    use: [".data,
   "    call: ${{ run.mint-dir }}/".data]

/-- A document in plain embedded-file context, mirroring the embedded-run
completion test fixture. -/
def fixEmbedDoc : Doc :=
  ["tasks:".data, "  - key: embedded".data, "    call: ${{ run.mint-dir }}/".data]

/-- A directory listing with one folder and one YAML file. -/
def fixEntries : List FsEntry := [⟨"shared".data, true⟩, ⟨"a.yml".data, false⟩]

/-- A document with a simple `use: ` dependency being typed, mirroring the
simple-use completion test fixture. -/
def fixSimpleUseDoc : Doc :=
  ["".data, "tasks:".data, "  - key: build".data, "    run: npm run build".data,
   "  - key: test".data, "    run: npm test".data, "  - key: deploy".data,
   "    use: ".data]

/-- A document with a `use: [` list left open across several lines,
mirroring the multi-line completion test fixture. -/
def fixOpenDoc : Doc :=
  ["tasks:".data, "  - key: build".data, "    run: npm run build".data,
   "  - key: test".data, "    run: npm test".data, "  - key: lint".data,
   "    run: npm run lint".data, "  - key: deploy".data, "    use: [".data,
   "      task-1,".data, "      task-2,".data]

/-! ### Theorems -/

/-- A successful literal match decomposes the scanned list. -/
theorem dropLit_eq_some {p l r : List Char} (h : dropLit p l = some r) : l = p ++ r := by
  induction p generalizing l with
  | nil =>
    simp only [dropLit, Option.some.injEq] at h
    simp [h]
  | cons c p ih =>
    cases l with
    | nil => simp [dropLit] at h
    | cons d l' =>
      simp only [dropLit] at h
      by_cases hc : c = d
      · rw [if_pos hc] at h
        subst hc
        simp [ih h]
      · rw [if_neg hc] at h
        exact Option.noConfusion h

/-- Appending a character past a line whose space prefix ends early leaves
the space scan unchanged. -/
theorem spanSpaces_append_single (l : List Char) (x : Char)
    (h : (spanSpaces l).2 ≠ []) :
    spanSpaces (l ++ [x]) = ((spanSpaces l).1, (spanSpaces l).2 ++ [x]) := by
  induction l with
  | nil => simp [spanSpaces] at h
  | cons c r ih =>
    by_cases hc : c = ' '
    · subst hc
      have h' : (spanSpaces r).2 ≠ [] := by
        intro hr
        exact h (by simp [spanSpaces, hr])
      simp [spanSpaces, ih h']
    · simp [spanSpaces, hc]

/-- Appending a character past a line whose dash scan ends early leaves the
dash scan unchanged. -/
theorem skipDash_append_single (l : List Char) (x : Char)
    (h : (skipDash l).2 ≠ []) :
    skipDash (l ++ [x]) = ((skipDash l).1, (skipDash l).2 ++ [x]) := by
  cases l with
  | nil => simp [skipDash] at h
  | cons c r =>
    by_cases hc : c = '-'
    · subst hc
      have h' : (spanSpaces r).2 ≠ [] := by
        intro hr
        exact h (by simp [skipDash, hr])
      simp [skipDash, spanSpaces_append_single r x h']
    · simp [skipDash, hc]

/-- The content of a `use:` line after indentation and dash. -/
theorem use_line_content {l : List Char} (h : lineStartsWithUse l = true) :
    ∃ rest, (skipDash (spanSpaces l).2).2 = "use:".data ++ rest := by
  unfold lineStartsWithUse lineStartsWithKw at h
  obtain ⟨rest, hrest⟩ := Option.isSome_iff_exists.mp h
  exact ⟨rest, dropLit_eq_some hrest⟩

/-- A line that starts with the `use:` keyword never matches the task-key
definition pattern, nor does it after a closing bracket is appended. -/
theorem taskKeyDef_none_of_use (l : List Char) (h : lineStartsWithUse l = true) :
    taskKeyDefOfLine l = none ∧ taskKeyDefOfLine (l ++ [']']) = none := by
  obtain ⟨rest, hr2⟩ := use_line_content h
  have hspan : (spanSpaces l).2 ≠ [] := by
    intro hsp
    rw [hsp] at hr2
    simp [skipDash] at hr2
  have hsd : (skipDash (spanSpaces l).2).2 ≠ [] := by
    rw [hr2]; simp
  constructor
  · have hk : dropLit "key:".data ((skipDash (spanSpaces l).2).2) = none := by
      rw [hr2]; simp [dropLit]
    simp only [taskKeyDefOfLine, kvIdentOfLine, hk]
  · have hk : dropLit "key:".data ((skipDash (spanSpaces (l ++ [']'])).2).2) = none := by
      rw [spanSpaces_append_single l ']' hspan]
      show dropLit "key:".data ((skipDash ((spanSpaces l).2 ++ [']'])).2) = none
      rw [skipDash_append_single _ ']' hsd]
      show dropLit "key:".data ((skipDash (spanSpaces l).2).2 ++ [']']) = none
      rw [hr2]
      simp [dropLit]
    simp only [taskKeyDefOfLine, kvIdentOfLine, hk]

/-- The space scan of a run of spaces followed by a non-space tail. -/
theorem spanSpaces_replicate_append (n : Nat) (l : List Char) :
    spanSpaces (List.replicate n ' ' ++ l) =
      (n + (spanSpaces l).1, (spanSpaces l).2) := by
  induction n with
  | zero => simp
  | succ m ih =>
    simp [List.replicate_succ, spanSpaces, ih, Prod.mk.injEq]
    omega

/-- The closing-bracket line inserted by the repair never matches the
task-key definition pattern. -/
theorem taskKeyDef_none_closer (n : Nat) :
    taskKeyDefOfLine (List.replicate n ' ' ++ [']']) = none := by
  unfold taskKeyDefOfLine kvIdentOfLine
  rw [spanSpaces_replicate_append]
  simp [spanSpaces, skipDash, dropLit]

/-- Claim C3: for every document whose filesystem path has no segment equal
to `.mint` or `.rwx`, every request kind returns its no-applicable-result
response (empty list or null), regardless of the document's content. -/
theorem c3_gate_rejects_foreign_paths (path : List Char)
    (h : ∀ s ∈ splitSegs path, s ≠ ".mint".data ∧ s ≠ ".rwx".data) :
    ∀ (env : Env) (doc : Doc) (li col : Nat) (incl : Bool) (k : RequestKind),
      handleRequest path env doc li col incl k = noResultResponse k := by
  intro env doc li col incl k
  have hg : isRwxFilePath path = false := by
    unfold isRwxFilePath
    rw [List.any_eq_false]
    intro s hs
    simp only [Bool.or_eq_true, beq_iff_eq, not_or]
    exact ⟨(h s hs).1, (h s hs).2⟩
  simp [handleRequest, hg]

/-- Witness for C3 at a concrete ineligible path and request. -/
theorem c3_gate_rejects_foreign_paths_witness :
    (∀ s ∈ splitSegs fixBadPath, s ≠ ".mint".data ∧ s ≠ ".rwx".data) ∧
    handleRequest fixBadPath fixEnv fixTasksDoc 1 8 true .references =
      noResultResponse .references :=
  ⟨by decide, c3_gate_rejects_foreign_paths fixBadPath (by decide)
    fixEnv fixTasksDoc 1 8 true .references⟩

/-- Claim C4: for a task key defined exactly once and referenced `n` times
(simple or bracketed form), the references request at a cursor resolving to
that task returns `n + 1` locations with the declaration included and `n`
without it. -/
theorem c4_task_reference_counts (doc : Doc) (li col : Nat) (name : List Char) (n : Nat)
    (hres : resolveRefTokenAt doc li col = some (.task name))
    (hdef : (taskDefLocs doc name).length = 1)
    (huse : (taskUseLocs doc name).length = n) :
    (referencesRequest doc li col true).length = n + 1 ∧
    (referencesRequest doc li col false).length = n := by
  unfold referencesRequest taskReferences
  rw [hres]
  constructor
  · simp [List.length_append, hdef, huse, Nat.add_comm]
  · simp [List.length_append, huse]

/-- Witness for C4 on the concrete references fixture. -/
theorem c4_task_reference_counts_witness :
    (resolveRefTokenAt fixTasksDoc 1 10 = some (.task "build".data) ∧
     (taskDefLocs fixTasksDoc "build".data).length = 1 ∧
     (taskUseLocs fixTasksDoc "build".data).length = 2) ∧
    ((referencesRequest fixTasksDoc 1 10 true).length = 2 + 1 ∧
     (referencesRequest fixTasksDoc 1 10 false).length = 2) :=
  ⟨⟨by decide, by decide, by decide⟩,
   c4_task_reference_counts fixTasksDoc 1 10 "build".data 2
     (by decide) (by decide) (by decide)⟩

/-- Claim C5: for a YAML anchor with `m` alias occurrences, the references
request from the anchor with the declaration included returns `m + 1`
locations, and the request from any alias returns the same list. -/
theorem c5_anchor_reference_counts (doc : Doc) (la ca lb cb : Nat)
    (name : List Char) (d : Loc) (m : Nat)
    (hanc : resolveRefTokenAt doc la ca = some (.anchor name))
    (hali : resolveRefTokenAt doc lb cb = some (.aliasRef name))
    (hdef : anchorDefLoc doc name = some d)
    (hm : (aliasOccs doc name).length = m) :
    (referencesRequest doc la ca true).length = m + 1 ∧
    referencesRequest doc lb cb true = referencesRequest doc la ca true := by
  have e1 : referencesRequest doc la ca true = anchorReferences doc name true := by
    simp [referencesRequest, hanc]
  have e2 : referencesRequest doc lb cb true = anchorReferences doc name true := by
    simp [referencesRequest, hali]
  rw [e1, e2]
  refine ⟨?_, rfl⟩
  simp [anchorReferences, hdef, hm, Nat.add_comm]

/-- Witness for C5 on the concrete anchor fixture. -/
theorem c5_anchor_reference_counts_witness :
    (resolveRefTokenAt fixAnchorDoc 0 12 = some (.anchor "common-config".data) ∧
     resolveRefTokenAt fixAnchorDoc 6 9 = some (.aliasRef "common-config".data) ∧
     anchorDefLoc fixAnchorDoc "common-config".data = some ⟨0, 10, 24⟩ ∧
     (aliasOccs fixAnchorDoc "common-config".data).length = 3) ∧
    ((referencesRequest fixAnchorDoc 0 12 true).length = 3 + 1 ∧
     referencesRequest fixAnchorDoc 6 9 true = referencesRequest fixAnchorDoc 0 12 true) :=
  ⟨⟨by decide, by decide, by decide, by decide⟩,
   c5_anchor_reference_counts fixAnchorDoc 0 12 6 9 "common-config".data ⟨0, 10, 24⟩ 3
     (by decide) (by decide) (by decide) (by decide)⟩

/-- The index found by the last-index-of search is a genuine occurrence:
the line decomposes around the pattern there. -/
theorem lastIndexOfSub_decomp {pat l : List Char} {s : Nat}
    (h : lastIndexOfSub pat l = some s) :
    l = l.take s ++ pat ++ l.drop (s + pat.length) := by
  have hm : s ∈ (List.range (l.length + 1)).filter
      (fun i => pat.isPrefixOf (l.drop i)) := List.mem_of_mem_getLast? h
  have hp : pat.isPrefixOf (l.drop s) = true := (List.mem_filter.mp hm).2
  obtain ⟨t, ht⟩ := List.isPrefixOf_iff_prefix.mp hp
  have h2 : l.drop (s + pat.length) = t := by
    rw [← List.drop_drop, ← ht, List.drop_left]
  calc l = l.take s ++ l.drop s := (List.take_append_drop s l).symm
    _ = l.take s ++ pat ++ l.drop (s + pat.length) := by
        rw [← ht, h2, List.append_assoc]

/-- Claim C6: every outdated-version code action carries a single edit
whose application turns its line into the same line with the version token
replaced by the reported latest version. -/
theorem c6_version_edit_roundtrip (doc : Doc) (latest : LatestLookup) (a : CodeAction)
    (ha : a ∈ versionUpdateActions doc latest) :
    ∃ n v lv pre post,
      packageCallOfLine (lineAt doc a.edit.line) = some (n, v) ∧
      latest n = some lv ∧ lv ≠ v ∧ a.edit.newText = lv ∧
      lineAt doc a.edit.line = pre ++ v ++ post ∧
      applyEditToLine (lineAt doc a.edit.line) a.edit = pre ++ lv ++ post := by
  obtain ⟨site, hsite, hf⟩ := List.mem_filterMap.mp ha
  obtain ⟨p, hp, hg⟩ := List.mem_filterMap.mp hsite
  have hline : lineAt doc p.1 = p.2 := by
    have := List.mem_enum_iff_getElem?.mp hp
    simp [lineAt, List.getD_eq_getElem?_getD, this]
  rcases hnv : packageCallOfLine p.2 with _ | ⟨n, v⟩
  · simp [hnv] at hg
  · simp only [hnv] at hg
    rcases hls : lastIndexOfSub v p.2 with _ | s
    · simp [hls] at hg
    · simp only [hls, Option.map_some', Option.some.injEq] at hg
      rw [← hg] at hf
      rcases hlv : latest n with _ | lv
      · simp [hlv] at hf
      · simp only [hlv] at hf
        by_cases hne : (lv == v) = true
        · rw [if_pos hne] at hf
          exact Option.noConfusion hf
        · rw [if_neg hne] at hf
          have ha' : a = CodeAction.mk ("Update to latest version ".data ++ lv)
              (TextEdit.mk p.1 s (s + v.length) lv) := by
            exact (Option.some_injective _ hf).symm
          refine ⟨n, v, lv, p.2.take s, p.2.drop (s + v.length), ?_, hlv, ?_, ?_, ?_, ?_⟩
          · rw [ha', hline]; exact hnv
          · exact fun hc => hne (by simp [hc])
          · rw [ha']
          · rw [ha', hline]
            exact lastIndexOfSub_decomp hls
          · rw [ha', hline]
            rfl

/-- Witness for C6 on the concrete package-call fixture. -/
theorem c6_version_edit_roundtrip_witness :
    ((⟨"Update to latest version 1.0.5".data, ⟨2, 23, 28, "1.0.5".data⟩⟩ : CodeAction) ∈
      versionUpdateActions fixCallDoc fixLatest) ∧
    (∃ n v lv pre post,
      packageCallOfLine (lineAt fixCallDoc 2) = some (n, v) ∧
      fixLatest n = some lv ∧ lv ≠ v ∧ "1.0.5".data = lv ∧
      lineAt fixCallDoc 2 = pre ++ v ++ post ∧
      applyEditToLine (lineAt fixCallDoc 2) ⟨2, 23, 28, "1.0.5".data⟩ = pre ++ lv ++ post) :=
  ⟨by decide,
   c6_version_edit_roundtrip fixCallDoc fixLatest
     ⟨"Update to latest version 1.0.5".data, ⟨2, 23, 28, "1.0.5".data⟩⟩ (by decide)⟩

/-- Claim C10: at a cursor with no recognized navigable token, the
references request on an eligible document answers with the empty list,
not null and not an error. -/
theorem c10_references_empty_off_token (path : List Char) (env : Env) (doc : Doc)
    (li col : Nat) (incl : Bool)
    (hpath : isRwxFilePath path = true)
    (hres : resolveRefTokenAt doc li col = none) :
    handleRequest path env doc li col incl .references = .references [] := by
  simp only [handleRequest, hpath, if_true]
  unfold referencesRequest
  rw [hres]

/-- Witness for C10 on the concrete references fixture, cursor on a `run:`
value. -/
theorem c10_references_empty_off_token_witness :
    (isRwxFilePath fixGoodPath = true ∧
     resolveRefTokenAt fixTasksDoc 2 9 = none) ∧
    handleRequest fixGoodPath fixEnv fixTasksDoc 2 9 true .references = .references [] :=
  ⟨⟨by decide, by decide⟩,
   c10_references_empty_off_token fixGoodPath fixEnv fixTasksDoc 2 9 true
     (by decide) (by decide)⟩

/-- Replacing a line with one on which a line-to-option extraction agrees
leaves the extraction of the document unchanged. -/
theorem filterMap_set_eq (f : Line → Option (List Char)) (doc : Doc) :
    ∀ (li : Nat) (x : Line), f x = f (lineAt doc li) →
      (doc.set li x).filterMap f = doc.filterMap f := by
  induction doc with
  | nil => intro li x _; rfl
  | cons d ds ih =>
    intro li x h
    cases li with
    | zero => simp [List.filterMap_cons, show f x = f d from h]
    | succ m => simp [List.filterMap_cons, ih m x (show f x = f (lineAt ds m) from h)]

/-- Replacing a line by one with the same task-key scan result preserves
the task-key enumeration. -/
theorem extractTaskKeys_set (doc : Doc) (li : Nat) (x : Line)
    (h : taskKeyDefOfLine x = taskKeyDefOfLine (lineAt doc li)) :
    extractTaskKeys (doc.set li x) = extractTaskKeys doc := by
  unfold extractTaskKeys
  rw [filterMap_set_eq _ doc li x (by rw [h])]

/-- Inserting a line that matches no task-key definition preserves the
task-key enumeration. -/
theorem extractTaskKeys_insert (doc : Doc) (i : Nat) (newl : Line)
    (h : taskKeyDefOfLine newl = none) :
    extractTaskKeys (doc.take i ++ [newl] ++ doc.drop i) = extractTaskKeys doc := by
  unfold extractTaskKeys
  congr 1
  rw [List.filterMap_append, List.filterMap_append]
  have hnil : List.filterMap (fun l => (taskKeyDefOfLine l).map (·.2)) [newl] = [] := by
    simp [List.filterMap_cons, h]
  rw [hnil]
  rw [List.append_nil, ← List.filterMap_append, List.take_append_drop]

/-- The Speculative Repair transform never changes the set of task-key
definition lines: the enumeration of declared keys is invariant. -/
theorem extractTaskKeys_repair (doc : Doc) (li col : Nat) :
    extractTaskKeys (speculativeRepair doc li col) = extractTaskKeys doc := by
  simp only [speculativeRepair]
  by_cases h1 : (lineStartsWithUse (lineAt doc li) &&
      decide (countCloseBr (lineAt doc li) < countOpenBr (lineAt doc li))) = true
  · rw [if_pos h1]
    have hu : lineStartsWithUse (lineAt doc li) = true := by
      have h1' := h1
      simp only [Bool.and_eq_true] at h1'
      exact h1'.1
    obtain ⟨hn1, hn2⟩ := taskKeyDef_none_of_use _ hu
    exact extractTaskKeys_set doc li _ (by rw [hn2, hn1])
  · rw [if_neg h1]
    rcases ho : useArrayOpenerIndent ((doc.take li).reverse)
        (countOpenBr ((lineAt doc li).take col)) (countCloseBr ((lineAt doc li).take col))
      with _ | ind
    · simp only [ho]
    · simp only [ho]
      by_cases hcl : closedLater (doc.drop (li + 1)) = true
      · rw [if_pos hcl]
      · rw [if_neg hcl]
        exact extractTaskKeys_insert doc (li + 1) (List.replicate ind ' ' ++ [']'])
          (taskKeyDef_none_closer ind)

/-- The labels of the task completion items are exactly the keys they were
built from, in order. -/
theorem taskCompletionItems_labels (keys : List (List Char)) :
    (taskCompletionItems keys).map (fun it => it.label) = keys := by
  unfold taskCompletionItems
  rw [List.map_map]
  show keys.enum.map Prod.snd = keys
  exact List.enum_map_snd keys

/-- In dependency-list context the completion labels are the document's
declared task keys without the enclosing task's key (going through repair,
classification and assembly). -/
theorem completionLabels_of_useCtx (doc : Doc) (li col : Nat) (entries : List FsEntry)
    (cur : List Char) (packages : List PkgInfo) (details : Catalog)
    (h : useContextAt doc li col = true) :
    (completionAt doc li col entries cur packages details).map (fun it => it.label) =
      (extractTaskKeys doc).filter (fun k => !(some k == enclosingTaskKey doc li)) := by
  have hctx : classifyContext doc li col = .taskDepList := by
    simp [classifyContext, h]
  simp only [completionAt, hctx]
  rw [taskCompletionItems_labels]
  unfold dependencyCompletionKeys
  rw [extractTaskKeys_repair]

/-- Replacing a line does not change the lines before it. -/
theorem take_set_eq (l : Doc) : ∀ (i : Nat) (x : Line), (l.set i x).take i = l.take i := by
  induction l with
  | nil => intro i x; rfl
  | cons d ds ih =>
    intro i x
    cases i with
    | zero => rfl
    | succ m =>
      show d :: (ds.set m x).take m = d :: ds.take m
      rw [ih m x]

/-- Reading back the line just replaced. -/
theorem lineAt_set_self (l : Doc) : ∀ (i : Nat) (x : Line), i < l.length →
    lineAt (l.set i x) i = x := by
  induction l with
  | nil => intro i x h; exact absurd h (Nat.not_lt_zero i)
  | cons d ds ih =>
    intro i x h
    cases i with
    | zero => rfl
    | succ m => exact ih m x (Nat.lt_of_succ_lt_succ h)

/-- A document splits around any in-range line. -/
theorem doc_eq_take_cons_drop (doc : Doc) (li : Nat) (h : li < doc.length) :
    doc = doc.take li ++ lineAt doc li :: doc.drop (li + 1) := by
  have h1 : lineAt doc li = doc[li] := by
    simp [lineAt, List.getD_eq_getElem?_getD, List.getElem?_eq_getElem h]
  rw [h1, List.getElem_cons_drop doc li h, List.take_append_drop]

/-- The three possible outcomes of the Speculative Repair transform: no
change, a closing bracket appended to the cursor line (which starts with
`use:`), or a closing-bracket line inserted right after the cursor line. -/
theorem speculativeRepair_cases (doc : Doc) (li col : Nat) :
    speculativeRepair doc li col = doc ∨
    (lineStartsWithUse (lineAt doc li) = true ∧
      speculativeRepair doc li col = doc.set li (lineAt doc li ++ [']'])) ∨
    (∃ ind, speculativeRepair doc li col =
      doc.take (li + 1) ++ [List.replicate ind ' ' ++ [']']] ++ doc.drop (li + 1)) := by
  simp only [speculativeRepair]
  by_cases h1 : (lineStartsWithUse (lineAt doc li) &&
      decide (countCloseBr (lineAt doc li) < countOpenBr (lineAt doc li))) = true
  · rw [if_pos h1]
    refine Or.inr (Or.inl ⟨?_, rfl⟩)
    have h1' := h1
    simp only [Bool.and_eq_true] at h1'
    exact h1'.1
  · rw [if_neg h1]
    rcases ho : useArrayOpenerIndent ((doc.take li).reverse)
        (countOpenBr ((lineAt doc li).take col)) (countCloseBr ((lineAt doc li).take col))
      with _ | ind
    · exact Or.inl rfl
    · by_cases hcl : closedLater (doc.drop (li + 1)) = true
      · exact Or.inl (by simp [hcl])
      · refine Or.inr (Or.inr ⟨ind, ?_⟩)
        simp [hcl]

/-- Counterexample to claim C1 as stated: on the simple-use test fixture
the document declares build, test and deploy, the cursor sits in deploy's
`use: ` dependency list, and completion returns only build and test — the
enclosing task's key is excluded, so the labels are not the full declared
key list. -/
theorem c1_full_key_list_counterexample :
    useContextAt fixSimpleUseDoc 7 9 = true ∧
    extractTaskKeys fixSimpleUseDoc = ["build".data, "test".data, "deploy".data] ∧
    (completionAt fixSimpleUseDoc 7 9 [] [] [] fixNoCatalog).map (fun it => it.label) =
      ["build".data, "test".data] := by
  decide

/-- Claim C1, amended: in a task-dependency (`use:`) context, the
completion labels are exactly the task keys declared in the document, in
declaration order, excluding keyless tasks, empty or sentinel keys, and
the key of the task enclosing the cursor. -/
theorem c1_use_completion_labels (doc : Doc) (li col : Nat) (entries : List FsEntry)
    (cur : List Char) (packages : List PkgInfo) (details : Catalog)
    (h : useContextAt doc li col = true) :
    (completionAt doc li col entries cur packages details).map (fun it => it.label) =
      (extractTaskKeys doc).filter (fun k => !(some k == enclosingTaskKey doc li)) :=
  completionLabels_of_useCtx doc li col entries cur packages details h

/-- Witness for the amended C1 on the simple-use fixture, cursor after
`use: ` inside the deploy task. -/
theorem c1_use_completion_labels_witness :
    useContextAt fixSimpleUseDoc 7 9 = true ∧
    (completionAt fixSimpleUseDoc 7 9 [] [] [] fixNoCatalog).map (fun it => it.label) =
      (extractTaskKeys fixSimpleUseDoc).filter
        (fun k => !(some k == enclosingTaskKey fixSimpleUseDoc 7)) :=
  ⟨by decide, c1_use_completion_labels fixSimpleUseDoc 7 9 [] [] [] fixNoCatalog (by decide)⟩

/-- Counterexample to claim C2 as stated: on the multi-line open-list test
fixture the document declares build, test, lint and deploy, the cursor
sits inside deploy's unterminated `use: [` list, and completion returns
only build, test and lint — not the full declared key list. -/
theorem c2_full_key_list_counterexample :
    useArrayCtx fixOpenDoc 10 13 = true ∧
    extractTaskKeys fixOpenDoc =
      ["build".data, "test".data, "lint".data, "deploy".data] ∧
    (completionAt fixOpenDoc 10 13 [] [] [] fixNoCatalog).map (fun it => it.label) =
      ["build".data, "test".data, "lint".data] := by
  decide

/-- Claim C2, amended: with the cursor inside a still-open `use: [` list
(opened on the cursor line or an earlier one), completion still returns
the full list of declared task keys other than the enclosing task's key,
and the Speculative Repair transform changes nothing before the cursor
(neither the earlier lines nor the cursor line up to the cursor) and
invents no character other than realigning spaces and one closing
bracket. -/
theorem c2_open_list_completion_and_repair (doc : Doc) (li col : Nat)
    (entries : List FsEntry) (cur : List Char) (packages : List PkgInfo) (details : Catalog)
    (harr : useArrayCtx doc li col = true)
    (hli : li < doc.length)
    (hcol : col ≤ (lineAt doc li).length) :
    (completionAt doc li col entries cur packages details).map (fun it => it.label) =
      (extractTaskKeys doc).filter (fun k => !(some k == enclosingTaskKey doc li)) ∧
    (speculativeRepair doc li col).take li = doc.take li ∧
    (lineAt (speculativeRepair doc li col) li).take col = (lineAt doc li).take col ∧
    (∀ ch : Char, ch ≠ ']' → ch ≠ ' ' →
      (speculativeRepair doc li col).flatten.count ch = doc.flatten.count ch) := by
  refine ⟨completionLabels_of_useCtx doc li col entries cur packages details
    (by simp [useContextAt, harr]), ?_⟩
  rcases speculativeRepair_cases doc li col with hrep | ⟨hu, hrep⟩ | ⟨ind, hrep⟩
  · rw [hrep]
    exact ⟨rfl, rfl, fun ch h1 h2 => rfl⟩
  · refine ⟨?_, ?_, ?_⟩
    · rw [hrep, take_set_eq]
    · rw [hrep, lineAt_set_self doc li _ hli]
      exact List.take_append_of_le_length hcol
    · intro ch h1 h2
      rw [hrep, List.set_eq_take_append_cons_drop, if_pos hli]
      conv_rhs => rw [doc_eq_take_cons_drop doc li hli]
      simp [List.flatten_append, List.flatten_cons, List.count_append, List.count_cons,
        beq_false_of_ne (Ne.symm h1)]
  · refine ⟨?_, ?_, ?_⟩
    · rw [hrep]
      have hlen : li ≤ (doc.take (li + 1) ++ [List.replicate ind ' ' ++ [']']]).length := by
        simp [List.length_take]
        omega
      rw [List.take_append_of_le_length hlen]
      have hlen2 : li ≤ (doc.take (li + 1)).length := by
        simp [List.length_take]
        omega
      rw [List.take_append_of_le_length hlen2, List.take_take]
      congr 1
      omega
    · rw [hrep]
      have heq : lineAt (doc.take (li + 1) ++ [List.replicate ind ' ' ++ [']']] ++
          doc.drop (li + 1)) li = lineAt doc li := by
        simp only [lineAt, List.getD_eq_getElem?_getD]
        rw [List.getElem?_append_left, List.getElem?_append_left, List.getElem?_take]
        · simp [Nat.lt_succ_self]
        · simp [List.length_take]
          omega
        · simp [List.length_take]
          omega
      rw [heq]
    · intro ch h1 h2
      rw [hrep]
      simp [List.flatten_append, List.flatten_cons, List.count_append, List.count_cons,
        List.count_replicate, beq_false_of_ne (Ne.symm h1), beq_false_of_ne (Ne.symm h2)]
      rw [← List.count_append, ← List.flatten_append, List.take_append_drop]

/-- Witness for the amended C2 on the multi-line open-list fixture. -/
theorem c2_open_list_completion_and_repair_witness :
    (useArrayCtx fixOpenDoc 10 13 = true ∧ 10 < fixOpenDoc.length ∧
     13 ≤ (lineAt fixOpenDoc 10).length) ∧
    ((completionAt fixOpenDoc 10 13 [] [] [] fixNoCatalog).map (fun it => it.label) =
       (extractTaskKeys fixOpenDoc).filter
         (fun k => !(some k == enclosingTaskKey fixOpenDoc 10)) ∧
     (speculativeRepair fixOpenDoc 10 13).take 10 = fixOpenDoc.take 10 ∧
     (lineAt (speculativeRepair fixOpenDoc 10 13) 10).take 14 =
       (lineAt fixOpenDoc 10).take 13 ∧
     (speculativeRepair fixOpenDoc 10 13).flatten.count 'x' =
       fixOpenDoc.flatten.count 'x') :=
  ⟨⟨by decide, by decide, by decide⟩, by
    have h := c2_open_list_completion_and_repair fixOpenDoc 10 13 [] [] [] fixNoCatalog
      (by decide) (by decide) (by decide)
    exact ⟨h.1, h.2.1, h.2.2.1, h.2.2.2 'x' (by decide) (by decide)⟩⟩

/-- Counterexample to claim C7 as stated: with an open `use: [` list from
the previous line still enclosing the cursor, a position whose before-text
matches `call:` plus the run-directory placeholder is classified as a
dependency list (the dependency-list check has priority), not as
embedded-file-path, and completion returns task entries (kind 18), neither
file/folder entries nor an empty list. -/
theorem c7_embedded_overlap_counterexample :
    (embeddedPathOfBefore ((lineAt fixOverlapDoc 4).take 30)).isSome = true ∧
    classifyContext fixOverlapDoc 4 30 ≠ Ctx.embeddedFilePath ∧
    (completionAt fixOverlapDoc 4 30 [] [] [] fixNoCatalog).map (fun it => it.kind) =
      [18] := by
  decide

/-- Claim C7, amended: at a cursor position whose before-text matches
`call:` followed by the run-directory placeholder and which is not inside
a dependency-list context, the classifier assigns embedded-file-path (and
not package-call), and completion returns only file or folder entries —
never package entries. -/
theorem c7_embedded_beats_package_call (doc : Doc) (li col : Nat)
    (entries : List FsEntry) (cur : List Char) (packages : List PkgInfo) (details : Catalog)
    (hemb : (embeddedPathOfBefore ((lineAt doc li).take col)).isSome = true)
    (hdep : useContextAt doc li col = false) :
    classifyContext doc li col = Ctx.embeddedFilePath ∧
    classifyContext doc li col ≠ Ctx.packageCall ∧
    ∀ it ∈ completionAt doc li col entries cur packages details,
      it.kind = 19 ∨ it.kind = 17 := by
  have hc : classifyContext doc li col = Ctx.embeddedFilePath := by
    simp [classifyContext, hdep, hemb]
  refine ⟨hc, by rw [hc]; decide, ?_⟩
  intro it hit
  simp only [completionAt, hc] at hit
  unfold fileCompletions at hit
  rcases List.mem_append.mp hit with h | h
  · obtain ⟨nm, _, rfl⟩ := List.mem_map.mp h
    exact Or.inl rfl
  · obtain ⟨nm, _, rfl⟩ := List.mem_map.mp h
    exact Or.inr rfl

/-- Witness for the amended C7 on the embedded-run fixture with a concrete
listing. -/
theorem c7_embedded_beats_package_call_witness :
    ((embeddedPathOfBefore ((lineAt fixEmbedDoc 2).take 30)).isSome = true ∧
     useContextAt fixEmbedDoc 2 30 = false) ∧
    (classifyContext fixEmbedDoc 2 30 = Ctx.embeddedFilePath ∧
     classifyContext fixEmbedDoc 2 30 ≠ Ctx.packageCall ∧
     ∀ it ∈ completionAt fixEmbedDoc 2 30 fixEntries [] [] fixNoCatalog,
       it.kind = 19 ∨ it.kind = 17) :=
  ⟨⟨by decide, by decide⟩,
   c7_embedded_beats_package_call fixEmbedDoc 2 30 fixEntries [] [] fixNoCatalog
     (by decide) (by decide)⟩

/-- Claim C8: the embedded-file-path completion list splits into a
directory block followed by a file block, each in ascending lexicographic
label order, and every returned entry is non-hidden, differs from the
currently-open file, and is a directory or a YAML file. -/
theorem c8_file_completion_shape (entries : List FsEntry) (cur : List Char) :
    ∃ dirPart filePart,
      fileCompletions entries cur = dirPart ++ filePart ∧
      (∀ it ∈ dirPart, it.kind = 19) ∧
      (∀ it ∈ filePart, it.kind = 17) ∧
      List.Sorted (· ≤ ·) (dirPart.map (·.label)) ∧
      List.Sorted (· ≤ ·) (filePart.map (·.label)) ∧
      ∀ it ∈ fileCompletions entries cur,
        isHiddenName it.label = false ∧ it.label ≠ cur ∧
          (it.kind = 19 ∨ isYamlName it.label = true) := by
  refine ⟨(sortedDirNames entries cur).map mkDirItem,
    (sortedFileNames entries cur).map mkFileItem, rfl, ?_, ?_, ?_, ?_, ?_⟩
  · intro it hit
    obtain ⟨nm, _, rfl⟩ := List.mem_map.mp hit
    rfl
  · intro it hit
    obtain ⟨nm, _, rfl⟩ := List.mem_map.mp hit
    rfl
  · have hl : ((sortedDirNames entries cur).map mkDirItem).map (fun it => it.label) =
        sortedDirNames entries cur := by
      rw [List.map_map]
      exact List.map_id'' (fun _ => rfl) _
    rw [hl]
    exact List.sorted_insertionSort _ _
  · have hl : ((sortedFileNames entries cur).map mkFileItem).map (fun it => it.label) =
        sortedFileNames entries cur := by
      rw [List.map_map]
      exact List.map_id'' (fun _ => rfl) _
    rw [hl]
    exact List.sorted_insertionSort _ _
  · intro it hit
    rcases List.mem_append.mp hit with h | h
    · obtain ⟨nm, hnm, rfl⟩ := List.mem_map.mp h
      have hmem : nm ∈ ((keptEntries entries cur).filter (fun e => e.isDir)).map (·.name) :=
        (List.mem_insertionSort _).mp hnm
      obtain ⟨e, he, hen⟩ := List.mem_map.mp hmem
      subst hen
      have he1 := (List.mem_filter.mp he).1
      have hp := (List.mem_filter.mp he1).2
      simp only [Bool.and_eq_true, Bool.not_eq_true'] at hp
      refine ⟨?_, ?_, Or.inl rfl⟩
      · show isHiddenName e.name = false
        exact hp.1.1
      · show e.name ≠ cur
        exact beq_eq_false_iff_ne.mp hp.1.2
    · obtain ⟨nm, hnm, rfl⟩ := List.mem_map.mp h
      have hmem : nm ∈ ((keptEntries entries cur).filter (fun e => !e.isDir)).map (·.name) :=
        (List.mem_insertionSort _).mp hnm
      obtain ⟨e, he, hen⟩ := List.mem_map.mp hmem
      subst hen
      have hdir := (List.mem_filter.mp he).2
      have he1 := (List.mem_filter.mp he).1
      have hp := (List.mem_filter.mp he1).2
      simp only [Bool.and_eq_true, Bool.not_eq_true'] at hp hdir
      refine ⟨?_, ?_, Or.inr ?_⟩
      · show isHiddenName e.name = false
        exact hp.1.1
      · show e.name ≠ cur
        exact beq_eq_false_iff_ne.mp hp.1.2
      · show isYamlName e.name = true
        rcases Bool.or_eq_true _ _ |>.mp hp.2 with hd | hy
        · rw [hdir] at hd
          exact Bool.noConfusion hd
        · exact hy

/-- Claim C9: when the catalog details fetch fails or the package is
unknown, the hover request on a package-call line returns null and the
parameter-completion request returns the empty list; both are total
functions, so no error reaches the caller. -/
theorem c9_catalog_failure_degrades (doc : Doc) (lh lc cc : Nat)
    (entries : List FsEntry) (cur : List Char) (packages : List PkgInfo)
    (details : Catalog) (n v : List Char)
    (hcall : packageCallOfLine (lineAt doc lh) = some (n, v))
    (hctx : classifyContext doc lc cc = .parameterBlock)
    (henc : firstCallAbove doc lc = some (n, v))
    (hfail : details n v = none) :
    hoverAt doc lh details = none ∧
    completionAt doc lc cc entries cur packages details = [] := by
  constructor
  · simp [hoverAt, hcall, hfail]
  · simp [completionAt, hctx, henc, hfail]

/-- Witness for C9 on the concrete package-call fixture with a failing
catalog. -/
theorem c9_catalog_failure_degrades_witness :
    (packageCallOfLine (lineAt fixCallDoc 2) = some ("rwx/greeting".data, "1.0.4".data) ∧
     classifyContext fixCallDoc 4 6 = .parameterBlock ∧
     firstCallAbove fixCallDoc 4 = some ("rwx/greeting".data, "1.0.4".data) ∧
     fixNoCatalog "rwx/greeting".data "1.0.4".data = none) ∧
    (hoverAt fixCallDoc 2 fixNoCatalog = none ∧
     completionAt fixCallDoc 4 6 [] [] [] fixNoCatalog = []) :=
  ⟨⟨by decide, by decide, by decide, rfl⟩,
   c9_catalog_failure_degrades fixCallDoc 2 4 6 [] [] []
     fixNoCatalog "rwx/greeting".data "1.0.4".data
     (by decide) (by decide) (by decide) rfl⟩

end RwxLs
